import Mathlib

/-!
Verification of the Issue Tracker Dashboard's data-normalization and
aggregation core, shallowly embedded from the two source files (the
local-data variant component and the remote-data variant `App.tsx`).

Modelling conventions:
* a record (`Row`) is an association list of string keys to string values,
  in object-key insertion order; an absent field is an absent key and the
  JavaScript string conversion `String(v)` is the identity on our values;
* JavaScript `Date` values are modelled as integer millisecond timestamps
  at a fixed zero offset (a constant offset cancels in every difference
  the code takes); the multi-argument `Date` constructor is embedded as
  `mkDate`, including ECMAScript month/day normalization and the
  0–99 → 1900+year adjustment;
* the environment's string-accepting `Date` constructor (the parser's
  final fallback) is implementation-defined and not part of the
  repository, so functions that consult it take it as an explicit
  parameter `fallback : String → Option Int`;
* JavaScript integer arithmetic on day counts is modelled exactly over
  `Nat`/`Int` (integers at these magnitudes are exact in binary64); the
  average's division `sum / length` and its `toFixed(1)` are modelled
  bit-exactly for binary64 — round-to-nearest-ties-to-even division and
  toFixed's round-half-to-larger at one decimal — over exact rationals.
-/

namespace Dashboard

/-- A record: field names to string values, in insertion order. -/
abbrev Row := List (String × String)

/-! ## Column Resolver (local variant, `getColumnValue`) -/

/-- JavaScript `String.prototype.trim()`: strip whitespace from both ends
(embedded at the character level so that it evaluates in the kernel). -/
def jsTrim (s : String) : String :=
  ⟨((s.data.dropWhile Char.isWhitespace).reverse.dropWhile Char.isWhitespace).reverse⟩

/-- JavaScript `String.prototype.toLowerCase()` on the ASCII range. -/
def jsToLower (s : String) : String := ⟨s.data.map Char.toLower⟩

/-- First pass of `getColumnValue`: exact-key lookup against each alias in
order, skipping aliases that are absent or whose value is the empty string
(`row[name] !== undefined && row[name] !== ''`); a hit returns the value
trimmed. -/
def firstPass (row : Row) : List String → Option String
  | [] => none
  | name :: rest =>
    match row.lookup name with
    | some v => if v ≠ "" then some (jsTrim v) else firstPass row rest
    | none => firstPass row rest

/-- Does some alias match this record key after trimming and lowercasing
the key (`key.trim().toLowerCase() === name.toLowerCase()`)? -/
def keyMatches (possibleNames : List String) (key : String) : Bool :=
  possibleNames.any fun name => jsToLower (jsTrim key) == jsToLower name

/-- Second pass of `getColumnValue`: walk the record's keys in order and
return the (trimmed) value of the first key that trim/case-insensitively
matches any alias.  Note the source iterates keys in the outer loop and
aliases in the inner loop, and performs no empty-string check here. -/
def secondPass (possibleNames : List String) : Row → Option String
  | [] => none
  | (k, v) :: rest =>
    if keyMatches possibleNames k then some (jsTrim v)
    else secondPass possibleNames rest

/-- `getColumnValue(row, possibleNames)`: exact pass, then fallback pass,
then the sentinel "Unknown". -/
def getColumnValue (row : Row) (possibleNames : List String) : String :=
  match firstPass row possibleNames with
  | some v => v
  | none =>
    match secondPass possibleNames row with
    | some v => v
    | none => "Unknown"

def statusAliases : List String := ["Status", "status", "Status "]

def priorityAliases : List String := ["Priority", "priority", "Priority "]

def typeAliases : List String :=
  ["Issue tracker", "Issue tracker ", "Issue Tracker", "Issue Tracker ",
   "issue tracker", "Tracker", "Type", "type"]

def stateAliases : List String := ["State", "state", "State ", "States", "states"]

def createdOnAliases : List String := ["created_on", "Created", "created_on ", "Created On"]

def closedOnAliases : List String :=
  ["closed_on", "Closed On", "closed_on ", "Closed_On", "closedOn"]

def getStatus (row : Row) : String := getColumnValue row statusAliases

def getPriority (row : Row) : String := getColumnValue row priorityAliases

def getType (row : Row) : String := getColumnValue row typeAliases

def getState (row : Row) : String := getColumnValue row stateAliases

/-- `getCreatedOn`: column value with the "Unknown" sentinel mapped to "-". -/
def getCreatedOn (row : Row) : String :=
  let v := getColumnValue row createdOnAliases
  if v = "Unknown" then "-" else v

/-- `getClosedOn`: column value with the "Unknown" sentinel mapped to "-". -/
def getClosedOn (row : Row) : String :=
  let v := getColumnValue row closedOnAliases
  if v = "Unknown" then "-" else v

/-! ## Date Parser (`parseDate`) -/

/-- Maximal leading run of decimal digits and the remaining characters. -/
def takeDigits : List Char → List Char × List Char
  | [] => ([], [])
  | c :: cs =>
    if c.isDigit then
      let p := takeDigits cs
      (c :: p.1, p.2)
    else ([], c :: cs)

/-- Maximal leading run of whitespace: its length and the remaining characters. -/
def takeSpaces : List Char → Nat × List Char
  | [] => (0, [])
  | c :: cs =>
    if c.isWhitespace then
      let p := takeSpaces cs
      (p.1 + 1, p.2)
    else (0, c :: cs)

/-- `parseInt` on a run of decimal digits. -/
def digitsToNat (ds : List Char) : Nat :=
  ds.foldl (fun n c => 10 * n + (c.toNat - 48)) 0

/-- The source's first date pattern, the anchored regular expression for
`M/D/YYYY H:MM` (1–2 digit month, slash, 1–2 digit day, slash, 4-digit
year, whitespace, 1–2 digit hour, colon, 2-digit minute); capture groups in
order.  A maximal digit run of admissible length followed by the required
delimiter is equivalent to the regex with backtracking, because a longer
run leaves a digit where the non-digit delimiter is required. -/
def matchFull (s : String) : Option (Nat × Nat × Nat × Nat × Nat) :=
  let p1 := takeDigits s.data
  if p1.1.length = 0 ∨ p1.1.length > 2 then none else
  match p1.2 with
  | '/' :: r2 =>
    let p2 := takeDigits r2
    if p2.1.length = 0 ∨ p2.1.length > 2 then none else
    match p2.2 with
    | '/' :: r4 =>
      let p3 := takeDigits r4
      if p3.1.length ≠ 4 then none else
      let ps := takeSpaces p3.2
      if ps.1 = 0 then none else
      let p4 := takeDigits ps.2
      if p4.1.length = 0 ∨ p4.1.length > 2 then none else
      match p4.2 with
      | ':' :: r8 =>
        let p5 := takeDigits r8
        if p5.1.length ≠ 2 then none else
        match p5.2 with
        | [] => some (digitsToNat p1.1, digitsToNat p2.1, digitsToNat p3.1,
                      digitsToNat p4.1, digitsToNat p5.1)
        | _ => none
      | _ => none
    | _ => none
  | _ => none

/-- The source's second date pattern, the anchored regular expression for
`D/M/YY` (1–2 digits, slash, 1–2 digits, slash, exactly 2 digits, end);
capture groups in order. -/
def matchShort (s : String) : Option (Nat × Nat × Nat) :=
  let p1 := takeDigits s.data
  if p1.1.length = 0 ∨ p1.1.length > 2 then none else
  match p1.2 with
  | '/' :: r2 =>
    let p2 := takeDigits r2
    if p2.1.length = 0 ∨ p2.1.length > 2 then none else
    match p2.2 with
    | '/' :: r4 =>
      let p3 := takeDigits r4
      if p3.1.length ≠ 2 then none else
      match p3.2 with
      | [] => some (digitsToNat p1.1, digitsToNat p2.1, digitsToNat p3.1)
      | _ => none
    | _ => none
  | _ => none

/-- Slash-separated `A/B/YYYY` shape (1–2 digits, slash, 1–2 digits, slash,
exactly 4 digits, end); used only by the modelled environment parser. -/
def matchMDY (s : String) : Option (Nat × Nat × Nat) :=
  let p1 := takeDigits s.data
  if p1.1.length = 0 ∨ p1.1.length > 2 then none else
  match p1.2 with
  | '/' :: r2 =>
    let p2 := takeDigits r2
    if p2.1.length = 0 ∨ p2.1.length > 2 then none else
    match p2.2 with
    | '/' :: r4 =>
      let p3 := takeDigits r4
      if p3.1.length ≠ 4 then none else
      match p3.2 with
      | [] => some (digitsToNat p1.1, digitsToNat p2.1, digitsToNat p3.1)
      | _ => none
    | _ => none
  | _ => none

/-- Days from the epoch 1970-01-01 for a civil date with month in 1..12
(Hinnant's days-from-civil algorithm, truncating division as in the
reference implementation). -/
def daysFromCivil (y m d : Int) : Int :=
  let y2 := if m ≤ 2 then y - 1 else y
  let era := Int.tdiv (if 0 ≤ y2 then y2 else y2 - 399) 400
  let yoe := y2 - era * 400
  let mp := Int.emod (m + 9) 12
  let doy := Int.tdiv (153 * mp + 2) 5 + d - 1
  let doe := yoe * 365 + Int.tdiv yoe 4 - Int.tdiv yoe 100 + doy
  era * 146097 + doe - 719468

/-- ECMAScript `MakeDay(year, month, date)`: months are 0-based and month
and day overflow/underflow are normalized. -/
def makeDay (year m0 d : Int) : Int :=
  let ym := year + Int.fdiv m0 12
  let mn := Int.emod m0 12
  daysFromCivil ym (mn + 1) 1 + d - 1

/-- Timestamp (ms) of `new Date(year, m0, d)` at the fixed zero offset,
including ECMAScript's 0–99 → 1900+year adjustment of the multi-argument
constructor. -/
def mkDate (year m0 d : Int) : Int :=
  let yr := if 0 ≤ year ∧ year ≤ 99 then 1900 + year else year
  86400000 * makeDay yr m0 d

/-- Timestamp (ms) of a date plus an `H:MM` time of day. -/
def mkDateTime (year m0 d h mi : Int) : Int :=
  mkDate year m0 d + 3600000 * h + 60000 * mi

/-- `parseDate(dateStr)`: sentinel short-circuit, then the `M/D/YYYY H:MM`
pattern read month-first with the time ignored, then the `D/M/YY` pattern
read day-first with the two-digit year resolved by the >50 pivot, then the
environment's general-purpose date constructor `fallback`. -/
def parseDate (fallback : String → Option Int) (dateStr : String) : Option Int :=
  if dateStr = "" ∨ dateStr = "Unknown" ∨ dateStr = "-" then none
  else
    match matchFull dateStr with
    | some (month, day, year, _, _) => some (mkDate year ((month : Int) - 1) day)
    | none =>
      match matchShort dateStr with
      | some (day, month, year) =>
        let fullYear : Int := if year > 50 then 1900 + (year : Int) else 2000 + (year : Int)
        some (mkDate fullYear ((month : Int) - 1) day)
      | none => fallback dateStr

/-! ## Resolution-Time Calculator -/

/-- `Math.ceil(a / b)` for non-negative integer `a` and positive `b`. -/
def ceilDiv (a b : Nat) : Nat := (a + b - 1) / b

/-- The day count computed by the local variant's `getResolutionDays`, as a
number: sentinel check on the resolved closedOn, both endpoints through
`parseDate`, then `Math.ceil(Math.abs(closed - created) / 86400000)`;
`none` stands for the "-" result. -/
def getResolutionDaysNum (fallback : String → Option Int) (row : Row) : Option Nat :=
  let createdStr := getCreatedOn row
  let closedStr := getClosedOn row
  if closedStr = "-" ∨ closedStr = "Unknown" then none
  else
    match parseDate fallback createdStr, parseDate fallback closedStr with
    | some createdDate, some closedDate =>
      some (ceilDiv (closedDate - createdDate).natAbs 86400000)
    | _, _ => none

/-- Local variant `getResolutionDays(row)`: the day count rendered with
`toString`, or the sentinel "-". -/
def getResolutionDays (fallback : String → Option Int) (row : Row) : String :=
  match getResolutionDaysNum fallback row with
  | some n => toString n
  | none => "-"

/-- Remote variant `getResolutionDays(row)` from `App.tsx`: truthiness
check on the raw `closed_on`/`created_on` fields, both endpoints through
the environment's string-accepting `Date` constructor (`jsDate`), `NaN`
check, then the same ceiling formula. -/
def getResolutionDaysRemote (jsDate : String → Option Int) (row : Row) : String :=
  match row.lookup "closed_on", row.lookup "created_on" with
  | some closedOn, some createdOn =>
    if closedOn = "" ∨ createdOn = "" then "-"
    else
      match jsDate createdOn, jsDate closedOn with
      | some created, some closed =>
        toString (ceilDiv (closed - created).natAbs 86400000)
      | _, _ => "-"
  | _, _ => "-"

/-- Modelled from the spec: the environment's general-purpose `Date`
string constructor, which is not part of the repository.  Per §4.2 the
explicit `M/D/YYYY H:MM` format is "US month-first"; the model accepts
that month-first shape (keeping the time of day, which the constructor
retains) and plain `M/D/YYYY`, and rejects everything else. -/
def jsDateModel (s : String) : Option Int :=
  match matchFull s with
  | some (month, day, year, h, mi) =>
    some (mkDateTime year ((month : Int) - 1) day h mi)
  | none =>
    match matchMDY s with
    | some (month, day, year) => some (mkDate year ((month : Int) - 1) day)
    | none => none

/-! ## Aggregator -/

/-- One step of the counting `reduce`: `acc[key] = (acc[key] || 0) + 1`,
on a count map kept in key-insertion order. -/
def bump : List (String × Nat) → String → List (String × Nat)
  | [], key => [(key, 1)]
  | (k, v) :: rest, key =>
    if key = k then (k, v + 1) :: rest else (k, v) :: bump rest key

/-- The counting `reduce` over the dataset for one resolved dimension
(`statusCounts`, `priorityCounts`, `typeCounts`, `stateCounts`). -/
def countsBy (resolve : Row → String) (rows : List Row) : List (String × Nat) :=
  rows.foldl (fun acc row => bump acc (resolve row)) []

/-- A chart bucket `{ name, value }`. -/
structure ChartData where
  name : String
  value : Nat
  deriving DecidableEq, Repr

/-- `Object.entries(counts).map(([name, value]) => ({ name, value }))`. -/
def entriesToChart (counts : List (String × Nat)) : List ChartData :=
  counts.map fun p => ⟨p.1, p.2⟩

def statusData (rows : List Row) : List ChartData :=
  entriesToChart (countsBy getStatus rows)

def priorityData (rows : List Row) : List ChartData :=
  entriesToChart (countsBy getPriority rows)

def typeData (rows : List Row) : List ChartData :=
  entriesToChart (countsBy getType rows)

/-- The comparator `(a, b) => b.value - a.value`: `a` may precede `b` when
`a`'s count is at least `b`'s. -/
def valGe (a b : ChartData) : Prop := b.value ≤ a.value

instance : DecidableRel valGe := fun a b => Nat.decLe b.value a.value

instance : IsTotal ChartData valGe := ⟨fun a b => (Nat.le_total a.value b.value).symm⟩

instance : IsTrans ChartData valGe := ⟨fun _ _ _ h1 h2 => le_trans h2 h1⟩

/-- `stateData`: the state buckets sorted descending by count and truncated
to the first 10 (`.sort((a, b) => b.value - a.value).slice(0, 10)`). -/
def stateData (rows : List Row) : List ChartData :=
  (List.insertionSort valGe (entriesToChart (countsBy getState rows))).take 10

/-- `resolutionTimes`: per-record day counts with the "-" entries
discarded (`parseInt` of the rendered digits recovers the number, so the
map-then-filter over strings is the filterMap of the numeric results). -/
def resolutionTimes (fallback : String → Option Int) (rows : List Row) : List Nat :=
  rows.filterMap (getResolutionDaysNum fallback)

/-- Round `a / b` to the nearest integer, ties to even — the IEEE 754
default rounding used by binary64 division. -/
def rne (a b : Nat) : Nat :=
  let q := a / b
  let r := a % b
  if 2 * r < b then q
  else if b < 2 * r then q + 1
  else if q % 2 = 0 then q else q + 1

/-- Round `a / b` to the nearest integer, ties to the larger — the
rounding `toFixed` prescribes ("if there are two such n, pick the larger
n"): `floor(a / b + 1 / 2)`. -/
def rhu (a b : Nat) : Nat := (2 * a + b) / (2 * b)

/-- Fuel-based floor of the base-2 logarithm (structural, so it evaluates
in the kernel). -/
def natLog2Aux : Nat → Nat → Nat
  | 0, _ => 0
  | fuel + 1, n => if n ≤ 1 then 0 else natLog2Aux fuel (n / 2) + 1

def natLog2 (n : Nat) : Nat := natLog2Aux n n

/-- Is `s / l ≥ 2 ^ e`?  (Exactly, over the integers.) -/
def qGe (s l : Nat) (e : Int) : Bool :=
  if 0 ≤ e then decide (l * 2 ^ e.toNat ≤ s)
  else decide (l ≤ s * 2 ^ (-e).toNat)

/-- The binary exponent of `s / l` (for `s, l ≥ 1`): the unique `e` with
`2 ^ e ≤ s / l < 2 ^ (e + 1)`, computed from the two integer logarithms
and one correction test. -/
def floorLog2 (s l : Nat) : Int :=
  let e0 : Int := (natLog2 s : Int) - (natLog2 l : Int)
  if qGe s l e0 then e0 else e0 - 1

/-- The rounded 53-bit significand of the binary64 quotient `s / l`
(for `s ≥ 1`): `s / l` scaled into `[2 ^ 52, 2 ^ 53]` and rounded to
nearest, ties to even. -/
def flSig (s l : Nat) : Nat :=
  let e := floorLog2 s l
  if e ≤ 52 then rne (s * 2 ^ (52 - e).toNat) l
  else rne s (l * 2 ^ (e - 52).toNat)

/-- The value of the IEEE binary64 division `s / l` (ECMAScript
`Number::divide`: round to nearest, ties to even), as an exact rational:
the rounded 53-bit significand times `2 ^ (e - 52)`.  The exponent range
is modelled as unbounded, which coincides with binary64 whenever the
quotient is in the normal range — every quotient a dashboard dataset can
realize; operands are non-negative, the only case the program creates. -/
def flDiv (s l : Nat) : ℚ :=
  if s = 0 then 0 else
  let e := floorLog2 s l
  if e ≤ 52 then (flSig s l : ℚ) / ((2 ^ (52 - e).toNat : Nat) : ℚ)
  else ((flSig s l * 2 ^ (e - 52).toNat : Nat) : ℚ)

/-- ECMAScript `(s / l).toFixed(1)` as a tenths count: the integer `n`
for which `n / 10` is as close as possible to the binary64 quotient
`s / l`, the larger `n` on a tie (modelled below toFixed's `10 ^ 21`
ToString cutoff, far beyond any realizable average). -/
def jsToFixed1Avg (s l : Nat) : Nat :=
  if s = 0 then 0 else
  let e := floorLog2 s l
  if e ≤ 52 then rhu (10 * flSig s l) (2 ^ (52 - e).toNat)
  else 10 * flSig s l * 2 ^ (e - 52).toNat

/-- The spec's words, kept as the comparison point for the refinement:
the arithmetic mean rounded half-up to one decimal place as a tenths
count, `floor((20 s + l) / (2 l))` — exact rational rounding, which the
program's `toFixed(1)` of the double quotient does not always match (see
the C8 counterexample). -/
def specRound10 (s l : Nat) : Nat := (20 * s + l) / (2 * l)

/-- Render a tenths count the way `toFixed(1)` does: integer part, a dot,
one decimal digit. -/
def renderFixed1 (n : Nat) : String := toString (n / 10) ++ "." ++ toString (n % 10)

/-- `avgResolutionTime`: `(sum / length).toFixed(1)` when any record has a
resolvable duration, else the string "0".  The sum and length are exact
(integers are exact in binary64 at these magnitudes); the division and
`toFixed(1)` follow the binary64 model `jsToFixed1Avg` bit-exactly. -/
def avgResolutionTime (fallback : String → Option Int) (rows : List Row) : String :=
  let ts := resolutionTimes fallback rows
  if ts.length > 0 then renderFixed1 (jsToFixed1Avg ts.sum ts.length) else "0"

/-! ## Filter Engine (local variant, `filteredData`) -/

/-- The `selectedFilter` state value `{ type, value }`. -/
structure SelectedFilter where
  type : String
  value : String

/-- `filteredData`: with no active selection the result is `[]`; with one,
the records are filtered by resolved-field equality according to the
selector kind, any unrecognized kind defaulting to `true`. -/
def filteredData (selectedFilter : Option SelectedFilter) (rows : List Row) :
    List Row :=
  match selectedFilter with
  | some sf =>
    rows.filter fun row =>
      if sf.type = "status" then getStatus row == sf.value
      else if sf.type = "priority" then getPriority row == sf.value
      else if sf.type = "type" then getType row == sf.value
      else if sf.type = "state" then getState row == sf.value
      else true
  | none => []

/-! ## Properties of the Column Resolver -/

theorem firstPass_hit (row : Row) (ns₁ ns₂ : List String) (name w : String)
    (hskip : ∀ n ∈ ns₁, ∀ w', row.lookup n = some w' → w' = "")
    (hw : row.lookup name = some w) (hne : w ≠ "") :
    firstPass row (ns₁ ++ name :: ns₂) = some (jsTrim w) := by
  induction ns₁ with
  | nil => simp [firstPass, hw, hne]
  | cons n ns ih =>
    have hrest : ∀ n' ∈ ns, ∀ w', row.lookup n' = some w' → w' = "" :=
      fun n' hn' => hskip n' (List.mem_cons_of_mem _ hn')
    cases h : row.lookup n with
    | none => simpa [firstPass, h] using ih hrest
    | some w' =>
      have he : w' = "" := hskip n (List.mem_cons_self _ _) w' h
      subst he
      simpa [firstPass, h] using ih hrest

theorem firstPass_none (row : Row) (ns : List String)
    (h : ∀ n ∈ ns, ∀ w, row.lookup n = some w → w = "") :
    firstPass row ns = none := by
  induction ns with
  | nil => rfl
  | cons n rest ih =>
    have hrest : ∀ n' ∈ rest, ∀ w, row.lookup n' = some w → w = "" :=
      fun n' hn' => h n' (List.mem_cons_of_mem _ hn')
    cases hn : row.lookup n with
    | none => simpa [firstPass, hn] using ih hrest
    | some w =>
      have he : w = "" := h n (List.mem_cons_self _ _) w hn
      subst he
      simpa [firstPass, hn] using ih hrest

theorem secondPass_hit (ns : List String) (row₁ row₂ : Row) (k v : String)
    (hskip : ∀ p ∈ row₁, keyMatches ns p.1 = false)
    (hk : keyMatches ns k = true) :
    secondPass ns (row₁ ++ (k, v) :: row₂) = some (jsTrim v) := by
  induction row₁ with
  | nil => simp [secondPass, hk]
  | cons p rest ih =>
    have hp : keyMatches ns p.1 = false := hskip p (List.mem_cons_self _ _)
    have hrest : ∀ p' ∈ rest, keyMatches ns p'.1 = false :=
      fun p' hp' => hskip p' (List.mem_cons_of_mem _ hp')
    cases p with
    | mk pk pv => simpa [secondPass, hp] using ih hrest

theorem secondPass_none (ns : List String) (row : Row)
    (h : ∀ p ∈ row, keyMatches ns p.1 = false) :
    secondPass ns row = none := by
  induction row with
  | nil => rfl
  | cons p rest ih =>
    have hp : keyMatches ns p.1 = false := h p (List.mem_cons_self _ _)
    have hrest : ∀ p' ∈ rest, keyMatches ns p'.1 = false :=
      fun p' hp' => h p' (List.mem_cons_of_mem _ hp')
    cases p with
    | mk pk pv => simpa [secondPass, hp] using ih hrest

/-- C1 (amended): the Column Resolver returns, in order of precedence:
the trimmed value of the first alias whose exact key is present with a
non-empty value; otherwise the trimmed value of the first record key that
trim/case-insensitively matches any alias — even when that value is the
empty string, so "" can be returned; otherwise the sentinel "Unknown".
The empty-string-means-absent rule applies only to the exact-match pass. -/
theorem claim_C1_resolver_amended (row : Row) (ns : List String) :
    (∀ ns₁ name ns₂ w, ns = ns₁ ++ name :: ns₂ →
        (∀ n ∈ ns₁, ∀ w', row.lookup n = some w' → w' = "") →
        row.lookup name = some w → w ≠ "" →
        getColumnValue row ns = jsTrim w)
    ∧ ((∀ n ∈ ns, ∀ w, row.lookup n = some w → w = "") →
        ∀ row₁ k v row₂, row = row₁ ++ (k, v) :: row₂ →
        (∀ p ∈ row₁, keyMatches ns p.1 = false) →
        keyMatches ns k = true →
        getColumnValue row ns = jsTrim v)
    ∧ ((∀ n ∈ ns, ∀ w, row.lookup n = some w → w = "") →
        (∀ p ∈ row, keyMatches ns p.1 = false) →
        getColumnValue row ns = "Unknown") := by
  refine ⟨?_, ?_, ?_⟩
  · intro ns₁ name ns₂ w hns hskip hw hne
    subst hns
    rw [getColumnValue, firstPass_hit row ns₁ ns₂ name w hskip hw hne]
  · intro hempty row₁ k v row₂ hrow hskip hk
    subst hrow
    rw [getColumnValue, firstPass_none _ _ hempty,
      secondPass_hit ns row₁ row₂ k v hskip hk]
  · intro hempty hnomatch
    rw [getColumnValue, firstPass_none _ _ hempty, secondPass_none _ _ hnomatch]

/-- C1 counterexample: a record whose "Status" key holds the empty string.
The claim says an empty-string match is treated as absent and the resolver
returns "Unknown"; the code's fallback pass matches the key
case-insensitively without the emptiness check and returns "". -/
theorem claim_C1_cex :
    getColumnValue [("Status", "")] statusAliases = "" ∧
    getColumnValue [("Status", "")] statusAliases ≠ "Unknown" := by
  constructor <;> decide

/-- C1 witness: the amended contract applied to a concrete record. -/
theorem claim_C1_witness :
    getColumnValue [("Status", " Open ")] statusAliases = "Open" := by
  have h := (claim_C1_resolver_amended [("Status", " Open ")] statusAliases).1
    [] "Status" ["status", "Status "] " Open " (by decide) (by simp) (by decide)
    (by decide)
  simpa using h

/-- C2 (amended): precedence among aliases.  In the exact-match pass the
earlier-listed alias wins: if an earlier alias has a non-empty exact
match, any later alias's match is ignored.  In the trim/case-insensitive
fallback pass the earliest matching record key wins, regardless of where
in the alias list its alias occurs — alias order does not decide the
fallback pass. -/
theorem claim_C2_precedence_amended (row : Row) (ns : List String) :
    (∀ ns₁ a ns₂ b ns₃ wa wb, ns = ns₁ ++ a :: ns₂ ++ b :: ns₃ →
        (∀ n ∈ ns₁, ∀ w', row.lookup n = some w' → w' = "") →
        row.lookup a = some wa → wa ≠ "" →
        row.lookup b = some wb → wb ≠ "" →
        getColumnValue row ns = jsTrim wa)
    ∧ ((∀ n ∈ ns, ∀ w, row.lookup n = some w → w = "") →
        ∀ row₁ k v row₂ k' v' row₃, row = row₁ ++ (k, v) :: row₂ ++ (k', v') :: row₃ →
        (∀ p ∈ row₁, keyMatches ns p.1 = false) →
        keyMatches ns k = true → keyMatches ns k' = true →
        getColumnValue row ns = jsTrim v) := by
  constructor
  · intro ns₁ a ns₂ b ns₃ wa wb hns hskip hwa hna _ _
    subst hns
    simp only [List.append_assoc, List.cons_append]
    rw [getColumnValue,
      firstPass_hit row ns₁ (ns₂ ++ b :: ns₃) a wa hskip hwa hna]
  · intro hempty row₁ k v row₂ k' v' row₃ hrow hskip hk _
    subst hrow
    simp only [List.append_assoc, List.cons_append] at hempty ⊢
    rw [getColumnValue, firstPass_none _ _ hempty,
      secondPass_hit ns row₁ (row₂ ++ (k', v') :: row₃) k v hskip hk]

/-- C2 counterexample: aliases ["alpha", "beta"]; the record's first key
matches the later alias "beta" and its second key matches the earlier
alias "alpha".  The claim says the earlier-listed alias wins in the
fallback pass, i.e. "a"; the code returns the earliest key's value "b". -/
theorem claim_C2_cex :
    getColumnValue [("Beta", "b"), ("Alpha", "a")] ["alpha", "beta"] = "b" ∧
    getColumnValue [("Beta", "b"), ("Alpha", "a")] ["alpha", "beta"] ≠ "a" := by
  constructor <;> decide

/-- C2 witness: the amended precedence applied to a concrete record. -/
theorem claim_C2_witness :
    getColumnValue [("Beta ", "x"), ("Alpha", "a")] ["alpha", "beta"] = "x" := by
  have h := (claim_C2_precedence_amended [("Beta ", "x"), ("Alpha", "a")]
      ["alpha", "beta"]).2 (by decide) [] "Beta " "x" [] "Alpha" "a" []
    (by decide) (by simp) (by decide) (by decide)
  simpa using h

/-! ## Properties of the Date Parser -/

theorem parseDate_sentinel (f : String → Option Int) (s : String)
    (h : s = "" ∨ s = "Unknown" ∨ s = "-") : parseDate f s = none := by
  rw [parseDate, if_pos h]

theorem parseDate_not_sentinel (f : String → Option Int) (s : String) (t : Int)
    (h : parseDate f s = some t) : s ≠ "" ∧ s ≠ "Unknown" ∧ s ≠ "-" := by
  refine ⟨?_, ?_, ?_⟩ <;> rintro rfl <;>
    rw [parseDate_sentinel f _ (by simp)] at h <;> cases h

/-- C3: the Date Parser's format policy.  Formats are tried in order with
first match winning: the `M/D/YYYY H:MM` shape is parsed month-first with
the time ignored; otherwise the `D/M/YY` shape is parsed day-first with
the two-digit year resolved by the >50 pivot (1900+year above 50, else
2000+year); the sentinels "", "Unknown" and "-" (the resolver's rendering
of a missing value) short-circuit to unparseable for every fallback
constructor; any other string is handed to the general date constructor,
so one that it rejects — such as "not a date" — is unparseable.  The
spec's two concrete examples are included. -/
theorem claim_C3_parseDate_policy (f : String → Option Int) :
    (∀ s m d y hh mm, matchFull s = some (m, d, y, hh, mm) →
        parseDate f s = some (mkDate y ((m : Int) - 1) d))
    ∧ (∀ s d m y, matchFull s = none → matchShort s = some (d, m, y) →
        parseDate f s =
          some (mkDate (if y > 50 then 1900 + (y : Int) else 2000 + (y : Int))
            ((m : Int) - 1) d))
    ∧ (parseDate f "" = none ∧ parseDate f "Unknown" = none ∧ parseDate f "-" = none)
    ∧ (∀ s, s ≠ "" → s ≠ "Unknown" → s ≠ "-" → matchFull s = none →
        matchShort s = none → parseDate f s = f s)
    ∧ (f "not a date" = none → parseDate f "not a date" = none)
    ∧ parseDate f "3/5/2024 10:30" = some (mkDate 2024 2 5)
    ∧ parseDate f "5/3/24" = some (mkDate 2024 2 5) := by
  have hfull : ∀ s m d y hh mm, matchFull s = some (m, d, y, hh, mm) →
      parseDate f s = some (mkDate y ((m : Int) - 1) d) := by
    intro s m d y hh mm hm
    have hs : ¬(s = "" ∨ s = "Unknown" ∨ s = "-") := by
      rintro (rfl | rfl | rfl)
      · rw [show matchFull "" = none from by decide] at hm; cases hm
      · rw [show matchFull "Unknown" = none from by decide] at hm; cases hm
      · rw [show matchFull "-" = none from by decide] at hm; cases hm
    rw [parseDate, if_neg hs, hm]
  have hshort : ∀ s d m y, matchFull s = none → matchShort s = some (d, m, y) →
      parseDate f s =
        some (mkDate (if y > 50 then 1900 + (y : Int) else 2000 + (y : Int))
          ((m : Int) - 1) d) := by
    intro s d m y hfl hm
    have hs : ¬(s = "" ∨ s = "Unknown" ∨ s = "-") := by
      rintro (rfl | rfl | rfl)
      · rw [show matchShort "" = none from by decide] at hm; cases hm
      · rw [show matchShort "Unknown" = none from by decide] at hm; cases hm
      · rw [show matchShort "-" = none from by decide] at hm; cases hm
    rw [parseDate, if_neg hs, hfl, hm]
  have hfall : ∀ s, s ≠ "" → s ≠ "Unknown" → s ≠ "-" → matchFull s = none →
      matchShort s = none → parseDate f s = f s := by
    intro s h1 h2 h3 hfl hsh
    have hs : ¬(s = "" ∨ s = "Unknown" ∨ s = "-") := by
      rintro (rfl | rfl | rfl) <;> simp_all
    rw [parseDate, if_neg hs, hfl, hsh]
  refine ⟨hfull, hshort,
    ⟨parseDate_sentinel f _ (by simp), parseDate_sentinel f _ (by simp),
      parseDate_sentinel f _ (by simp)⟩, hfall, ?_, ?_, ?_⟩
  · intro hnone
    rw [hfall "not a date" (by decide) (by decide) (by decide) (by decide)
      (by decide), hnone]
  · rw [hfull "3/5/2024 10:30" 3 5 2024 10 30 (by decide)]
    norm_num
  · rw [hshort "5/3/24" 5 3 24 (by decide) (by decide)]
    norm_num

/-- C3 witness: the policy applied at a fallback constructor that rejects
every string, on the spec's three example inputs and a sentinel. -/
theorem claim_C3_witness :
    parseDate (fun _ => none) "3/5/2024 10:30" = some (mkDate 2024 2 5) ∧
    parseDate (fun _ => none) "5/3/24" = some (mkDate 2024 2 5) ∧
    parseDate (fun _ => none) "not a date" = none ∧
    parseDate (fun _ => none) "Unknown" = none := by
  obtain ⟨-, -, ⟨-, hu, -⟩, -, hnd, h1, h2⟩ :=
    claim_C3_parseDate_policy (fun _ => none)
  exact ⟨h1, h2, hnd rfl, hu⟩

/-! ## Properties of the Resolution-Time Calculator -/

theorem digitChar_isDigit (n : Nat) (h : n < 10) : (Nat.digitChar n).isDigit = true := by
  interval_cases n <;> decide

theorem toDigitsCore_all_digits (fuel : Nat) :
    ∀ (n : Nat) (acc : List Char), ∀ c ∈ Nat.toDigitsCore 10 fuel n acc,
      c ∈ acc ∨ c.isDigit = true := by
  induction fuel with
  | zero => intro n acc c hc; exact Or.inl hc
  | succ fuel ih =>
    intro n acc c hc
    simp only [Nat.toDigitsCore] at hc
    by_cases h : n / 10 = 0
    · rw [if_pos h] at hc
      rcases List.mem_cons.mp hc with rfl | hmem
      · exact Or.inr (digitChar_isDigit _ (Nat.mod_lt _ (by decide)))
      · exact Or.inl hmem
    · rw [if_neg h] at hc
      rcases ih (n / 10) (Nat.digitChar (n % 10) :: acc) c hc with hmem | hd
      · rcases List.mem_cons.mp hmem with rfl | hmem2
        · exact Or.inr (digitChar_isDigit _ (Nat.mod_lt _ (by decide)))
        · exact Or.inl hmem2
      · exact Or.inr hd

/-- The decimal rendering of a natural number is never the sentinel "-". -/
theorem toString_nat_ne_dash (n : Nat) : toString n ≠ "-" := by
  intro h
  have hdata : Nat.toDigits 10 n = ['-'] := congrArg String.data h
  have hmem : '-' ∈ Nat.toDigitsCore 10 (n + 1) n [] := by
    rw [show Nat.toDigitsCore 10 (n + 1) n [] = Nat.toDigits 10 n from rfl, hdata]
    exact List.mem_singleton.mpr rfl
  rcases toDigitsCore_all_digits (n + 1) n [] '-' hmem with hmem2 | hd
  · exact absurd hmem2 (List.not_mem_nil _)
  · exact absurd hd (by decide)

theorem getResolutionDaysNum_eq_none_iff (f : String → Option Int) (row : Row) :
    getResolutionDaysNum f row = none ↔
      parseDate f (getCreatedOn row) = none ∨ parseDate f (getClosedOn row) = none := by
  simp only [getResolutionDaysNum]
  by_cases hc : getClosedOn row = "-" ∨ getClosedOn row = "Unknown"
  · rw [if_pos hc]
    simp only [true_iff]
    exact Or.inr (parseDate_sentinel f _ (by tauto))
  · rw [if_neg hc]
    cases h1 : parseDate f (getCreatedOn row) <;>
      cases h2 : parseDate f (getClosedOn row) <;> simp

theorem getResolutionDays_eq_of_parse (f : String → Option Int) (row : Row)
    (tc tz : Int) (h1 : parseDate f (getCreatedOn row) = some tc)
    (h2 : parseDate f (getClosedOn row) = some tz) :
    getResolutionDays f row = toString (ceilDiv (tz - tc).natAbs 86400000) := by
  obtain ⟨-, hu, hd⟩ := parseDate_not_sentinel f _ tz h2
  rw [getResolutionDays]
  have hnum : getResolutionDaysNum f row =
      some (ceilDiv (tz - tc).natAbs 86400000) := by
    simp only [getResolutionDaysNum]
    rw [if_neg (by tauto), h1, h2]
  rw [hnum]

/-- C4: the Resolution-Time Calculator returns "-" exactly when an
endpoint is unresolvable (the resolved closedOn being absent or a
sentinel makes its parse fail, so the disjunction subsumes the sentinel
early return); when both endpoints parse, it returns the ceiling of the
absolute millisecond difference over 86,400,000 rendered as a decimal
string, which is never "-" — so unparseable dates never degrade to "0",
and the total embedding returns a value on every input.  The spec's
example (created 1/1/2024, closed 1/3/2024 — both reaching the general
date constructor — giving "2") is included for any constructor that
accepts those strings as the corresponding midnights. -/
theorem claim_C4_resolution_calculator (f : String → Option Int) (row : Row) :
    (getResolutionDays f row = "-" ↔
      parseDate f (getCreatedOn row) = none ∨ parseDate f (getClosedOn row) = none)
    ∧ (∀ tc tz, parseDate f (getCreatedOn row) = some tc →
        parseDate f (getClosedOn row) = some tz →
        getResolutionDays f row = toString (ceilDiv (tz - tc).natAbs 86400000))
    ∧ (∀ g : String → Option Int, g "1/1/2024" = some (mkDate 2024 0 1) →
        g "1/3/2024" = some (mkDate 2024 0 3) →
        getResolutionDays g [("created_on", "1/1/2024"), ("closed_on", "1/3/2024")]
          = "2") := by
  refine ⟨?_, fun tc tz h1 h2 => getResolutionDays_eq_of_parse f row tc tz h1 h2, ?_⟩
  · rw [← getResolutionDaysNum_eq_none_iff, getResolutionDays]
    cases h : getResolutionDaysNum f row with
    | none => simp
    | some n => simpa using toString_nat_ne_dash n
  · intro g hg1 hg2
    have hp1 : parseDate g "1/1/2024" = g "1/1/2024" := by
      rw [parseDate, if_neg (by decide),
        show matchFull "1/1/2024" = none from by decide,
        show matchShort "1/1/2024" = none from by decide]
    have hp2 : parseDate g "1/3/2024" = g "1/3/2024" := by
      rw [parseDate, if_neg (by decide),
        show matchFull "1/3/2024" = none from by decide,
        show matchShort "1/3/2024" = none from by decide]
    have h := getResolutionDays_eq_of_parse g
      [("created_on", "1/1/2024"), ("closed_on", "1/3/2024")]
      (mkDate 2024 0 1) (mkDate 2024 0 3)
      (by rw [show getCreatedOn [("created_on", "1/1/2024"), ("closed_on", "1/3/2024")]
            = "1/1/2024" from by decide, hp1, hg1])
      (by rw [show getClosedOn [("created_on", "1/1/2024"), ("closed_on", "1/3/2024")]
            = "1/3/2024" from by decide, hp2, hg2])
    rw [h]
    decide

/-- C4 witness: the calculator at a constructor accepting the example
dates, and at the empty record with a rejecting constructor. -/
theorem claim_C4_witness :
    getResolutionDays
        (fun s => if s = "1/1/2024" then some (mkDate 2024 0 1)
          else if s = "1/3/2024" then some (mkDate 2024 0 3) else none)
        [("created_on", "1/1/2024"), ("closed_on", "1/3/2024")] = "2" ∧
    getResolutionDays (fun _ => none) [] = "-" := by
  constructor
  · exact (claim_C4_resolution_calculator (fun _ => none) []).2.2
      (fun s => if s = "1/1/2024" then some (mkDate 2024 0 1)
        else if s = "1/3/2024" then some (mkDate 2024 0 3) else none)
      (by decide) (by decide)
  · exact ((claim_C4_resolution_calculator (fun _ => none) []).1).mpr
      (Or.inl (by decide))

/-! ## Variant comparison for the resolution duration -/

/-- C5 (amended): the two variants do not share the Date Parser — the
remote variant checks only raw presence/emptiness of the
`created_on`/`closed_on` fields and parses them with the environment's
string `Date` constructor, which keeps the time of day. The variants
agree exactly on the common ground forced by the counterexample: whenever
the raw fields are present and non-empty and both parsing policies assign
the same timestamps to both endpoints, both variants return the same
rendered ceiling-day count; otherwise the outputs can differ on equal
input strings. -/
theorem claim_C5_variant_agreement_amended (f jsP : String → Option Int)
    (row : Row) (cc cz : String) (tc tz : Int)
    (hcc : row.lookup "created_on" = some cc) (hccne : cc ≠ "")
    (hcz : row.lookup "closed_on" = some cz) (hczne : cz ≠ "")
    (h1 : parseDate f (getCreatedOn row) = some tc) (h1r : jsP cc = some tc)
    (h2 : parseDate f (getClosedOn row) = some tz) (h2r : jsP cz = some tz) :
    getResolutionDays f row = getResolutionDaysRemote jsP row := by
  rw [getResolutionDays_eq_of_parse f row tc tz h1 h2]
  simp only [getResolutionDaysRemote, hcc, hcz]
  rw [if_neg (by tauto), h1r, h2r]

/-- C5 counterexample: one record, identical createdOn/closedOn strings
seen by both variants, on which the local variant answers "1" (the Date
Parser ignores the time of day) while the remote variant answers "2" (the
raw constructor keeps it, and 24h01m rounds up to 2 days). -/
theorem claim_C5_cex :
    getResolutionDays jsDateModel
      [("created_on", "3/5/2024 10:30"), ("closed_on", "3/6/2024 10:31")] = "1" ∧
    getResolutionDaysRemote jsDateModel
      [("created_on", "3/5/2024 10:30"), ("closed_on", "3/6/2024 10:31")] = "2" := by
  constructor <;> decide

/-- C5 witness: the agreement theorem at a record whose midnight
timestamps coincide under both parsing policies. -/
theorem claim_C5_witness :
    getResolutionDays jsDateModel
      [("created_on", "3/5/2024 0:00"), ("closed_on", "3/6/2024 0:00")] =
    getResolutionDaysRemote jsDateModel
      [("created_on", "3/5/2024 0:00"), ("closed_on", "3/6/2024 0:00")] :=
  claim_C5_variant_agreement_amended jsDateModel jsDateModel _
    "3/5/2024 0:00" "3/6/2024 0:00" (mkDate 2024 2 5) (mkDate 2024 2 6)
    (by decide) (by decide) (by decide) (by decide)
    (by decide) (by decide) (by decide) (by decide)

/-! ## Properties of the Aggregator -/

/-- Total of the bucket counts of a chart sequence. -/
def sumValues (l : List ChartData) : Nat := (l.map ChartData.value).sum

/-- The bucket names of a chart sequence. -/
def namesOf (l : List ChartData) : List String := l.map ChartData.name

theorem entriesToChart_values (cs : List (String × Nat)) :
    (entriesToChart cs).map ChartData.value = cs.map Prod.snd := by
  simp [entriesToChart, List.map_map, Function.comp_def]

theorem entriesToChart_names (cs : List (String × Nat)) :
    namesOf (entriesToChart cs) = cs.map Prod.fst := by
  simp [namesOf, entriesToChart, List.map_map, Function.comp_def]

theorem bump_snd_sum (acc : List (String × Nat)) (key : String) :
    ((bump acc key).map Prod.snd).sum = (acc.map Prod.snd).sum + 1 := by
  induction acc with
  | nil => simp [bump]
  | cons p rest ih =>
    cases p with
    | mk k v =>
      by_cases h : key = k
      · simp only [bump, if_pos h, List.map_cons, List.sum_cons]
        omega
      · simp only [bump, if_neg h, List.map_cons, List.sum_cons, ih]
        omega

theorem countsBy_sum_go (resolve : Row → String) (rows : List Row) :
    ∀ acc, ((rows.foldl (fun a r => bump a (resolve r)) acc).map Prod.snd).sum
      = (acc.map Prod.snd).sum + rows.length := by
  induction rows with
  | nil => intro acc; simp
  | cons r rows ih =>
    intro acc
    simp only [List.foldl_cons, List.length_cons]
    rw [ih, bump_snd_sum]
    omega

theorem countsBy_sum (resolve : Row → String) (rows : List Row) :
    ((countsBy resolve rows).map Prod.snd).sum = rows.length := by
  simpa using countsBy_sum_go resolve rows []

theorem bump_fst (acc : List (String × Nat)) (key : String) :
    (bump acc key).map Prod.fst =
      if key ∈ acc.map Prod.fst then acc.map Prod.fst
      else acc.map Prod.fst ++ [key] := by
  induction acc with
  | nil => simp [bump]
  | cons p rest ih =>
    cases p with
    | mk k v =>
      by_cases h : key = k
      · simp [bump, h]
      · by_cases hm : key ∈ rest.map Prod.fst <;>
          simp [bump, ih, List.mem_cons, h, hm]

theorem bump_fst_mem (acc : List (String × Nat)) (key k' : String) :
    k' ∈ (bump acc key).map Prod.fst ↔ k' ∈ acc.map Prod.fst ∨ k' = key := by
  rw [bump_fst]
  by_cases h : key ∈ acc.map Prod.fst
  · rw [if_pos h]
    constructor
    · exact Or.inl
    · rintro (hk | rfl)
      · exact hk
      · exact h
  · rw [if_neg h]
    simp

theorem bump_fst_nodup (acc : List (String × Nat)) (key : String)
    (h : (acc.map Prod.fst).Nodup) : ((bump acc key).map Prod.fst).Nodup := by
  rw [bump_fst]
  by_cases hm : key ∈ acc.map Prod.fst
  · rw [if_pos hm]
    exact h
  · rw [if_neg hm, List.nodup_append]
    refine ⟨h, List.nodup_singleton _, ?_⟩
    intro a ha hb
    rw [List.mem_singleton] at hb
    subst hb
    exact hm ha

theorem countsBy_nodup_go (resolve : Row → String) (rows : List Row) :
    ∀ acc, (acc.map Prod.fst).Nodup →
      (((rows.foldl (fun a r => bump a (resolve r)) acc)).map Prod.fst).Nodup := by
  induction rows with
  | nil => intro acc h; exact h
  | cons r rows ih =>
    intro acc h
    exact ih (bump acc (resolve r)) (bump_fst_nodup acc (resolve r) h)

theorem countsBy_nodup (resolve : Row → String) (rows : List Row) :
    ((countsBy resolve rows).map Prod.fst).Nodup :=
  countsBy_nodup_go resolve rows [] (by simp)

theorem countsBy_mem_go (resolve : Row → String) (rows : List Row) (k : String) :
    ∀ acc, (k ∈ (rows.foldl (fun a r => bump a (resolve r)) acc).map Prod.fst ↔
      k ∈ acc.map Prod.fst ∨ ∃ r ∈ rows, resolve r = k) := by
  induction rows with
  | nil => intro acc; simp
  | cons r rows ih =>
    intro acc
    rw [List.foldl_cons, ih (bump acc (resolve r))]
    rw [bump_fst_mem]
    constructor
    · rintro ((hk | rfl) | hr)
      · exact Or.inl hk
      · exact Or.inr ⟨r, List.mem_cons_self _ _, rfl⟩
      · obtain ⟨r', hr', hres⟩ := hr
        exact Or.inr ⟨r', List.mem_cons_of_mem _ hr', hres⟩
    · rintro (hk | ⟨r', hr', hres⟩)
      · exact Or.inl (Or.inl hk)
      · rcases List.mem_cons.mp hr' with rfl | hr2
        · exact Or.inl (Or.inr hres.symm)
        · exact Or.inr ⟨r', hr2, hres⟩

theorem countsBy_mem (resolve : Row → String) (rows : List Row) (k : String) :
    k ∈ (countsBy resolve rows).map Prod.fst ↔ ∃ r ∈ rows, resolve r = k := by
  simpa using countsBy_mem_go resolve rows k []

/-- C6 (amended): the per-dimension bucket counts sum to the total record
count for status, priority and type, and for the state dimension's full
count map before rendering — every record lands in exactly one bucket,
possibly "Unknown".  For the state dimension as rendered, the top-10
truncation preserves the total only when there are at most 10 distinct
resolved states; with more, the dropped buckets' records are lost from
the rendered sum. -/
theorem claim_C6_count_preservation_amended (rows : List Row) :
    sumValues (statusData rows) = rows.length
    ∧ sumValues (priorityData rows) = rows.length
    ∧ sumValues (typeData rows) = rows.length
    ∧ sumValues (entriesToChart (countsBy getState rows)) = rows.length
    ∧ ((countsBy getState rows).length ≤ 10 →
        sumValues (stateData rows) = rows.length) := by
  refine ⟨?_, ?_, ?_, ?_, ?_⟩
  · rw [sumValues, statusData, entriesToChart_values, countsBy_sum]
  · rw [sumValues, priorityData, entriesToChart_values, countsBy_sum]
  · rw [sumValues, typeData, entriesToChart_values, countsBy_sum]
  · rw [sumValues, entriesToChart_values, countsBy_sum]
  · intro hlen
    have hperm : List.Perm
        (List.insertionSort valGe (entriesToChart (countsBy getState rows)))
        (entriesToChart (countsBy getState rows)) :=
      List.perm_insertionSort valGe _
    have hlen2 : (List.insertionSort valGe
        (entriesToChart (countsBy getState rows))).length ≤ 10 := by
      rw [hperm.length_eq]
      simpa [entriesToChart] using hlen
    rw [stateData, List.take_of_length_le hlen2, sumValues,
      (hperm.map ChartData.value).sum_eq, entriesToChart_values, countsBy_sum]

/-- C6 counterexample dataset: 11 records with 11 distinct states. -/
def elevenStates : List Row :=
  [[("State", "s01")], [("State", "s02")], [("State", "s03")], [("State", "s04")],
   [("State", "s05")], [("State", "s06")], [("State", "s07")], [("State", "s08")],
   [("State", "s09")], [("State", "s10")], [("State", "s11")]]

/-- C6 counterexample: with 11 distinct states, the rendered state buckets
sum to 10 while the dataset has 11 records, so the claim's "holds also for
the state dimension as rendered" fails. -/
theorem claim_C6_cex :
    sumValues (stateData elevenStates) = 10 ∧ elevenStates.length = 11 := by
  constructor <;> decide

/-- C6 witness: the amended theorem on a dataset with two distinct states. -/
theorem claim_C6_witness :
    sumValues (stateData [[("State", "a")], [("State", "a")], [("State", "b")]]) = 3 := by
  have h := (claim_C6_count_preservation_amended
    [[("State", "a")], [("State", "a")], [("State", "b")]]).2.2.2.2 (by decide)
  rw [h]
  rfl

/-- C7: the rendered state buckets never number more than 10 and are
sorted non-increasing by count (`valGe`), while the other dimensions
(status, priority, type) yield exactly the set of distinct resolved
values — duplicate-free and covering precisely the values resolved from
some record — with no truncation. -/
theorem claim_C7_top10_truncation (rows : List Row) :
    (stateData rows).length ≤ 10
    ∧ (stateData rows).Pairwise valGe
    ∧ ((namesOf (statusData rows)).Nodup ∧
        ∀ v, v ∈ namesOf (statusData rows) ↔ ∃ r ∈ rows, getStatus r = v)
    ∧ ((namesOf (priorityData rows)).Nodup ∧
        ∀ v, v ∈ namesOf (priorityData rows) ↔ ∃ r ∈ rows, getPriority r = v)
    ∧ ((namesOf (typeData rows)).Nodup ∧
        ∀ v, v ∈ namesOf (typeData rows) ↔ ∃ r ∈ rows, getType r = v) := by
  refine ⟨?_, ?_, ⟨?_, ?_⟩, ⟨?_, ?_⟩, ⟨?_, ?_⟩⟩
  · exact le_trans (List.length_take_le _ _) (le_refl 10)
  · exact ((List.sorted_insertionSort valGe _).sublist (List.take_sublist _ _))
  · rw [statusData, entriesToChart_names]
    exact countsBy_nodup getStatus rows
  · intro v
    rw [statusData, entriesToChart_names, countsBy_mem]
  · rw [priorityData, entriesToChart_names]
    exact countsBy_nodup getPriority rows
  · intro v
    rw [priorityData, entriesToChart_names, countsBy_mem]
  · rw [typeData, entriesToChart_names]
    exact countsBy_nodup getType rows
  · intro v
    rw [typeData, entriesToChart_names, countsBy_mem]

/-! ## Properties of the average-resolution aggregate -/

theorem getResolutionDays_dash_iff (f : String → Option Int) (row : Row) :
    getResolutionDays f row = "-" ↔ getResolutionDaysNum f row = none := by
  rw [getResolutionDays]
  cases h : getResolutionDaysNum f row with
  | none => simp
  | some n => simpa using toString_nat_ne_dash n

theorem length_filterMap_eq_countP {α β : Type} (g : α → Option β) (l : List α) :
    (l.filterMap g).length = l.countP (fun a => (g a).isSome) := by
  induction l with
  | nil => rfl
  | cons x xs ih =>
    rw [List.filterMap_cons, List.countP_cons]
    cases h : g x with
    | none => simp [h, ih]
    | some b => simp [h, ih]

theorem resolutionTimes_length (f : String → Option Int) (rows : List Row) :
    (resolutionTimes f rows).length =
      rows.countP (fun r => getResolutionDays f r != "-") := by
  rw [resolutionTimes, length_filterMap_eq_countP]
  apply List.countP_congr
  intro r _
  cases h : getResolutionDaysNum f r with
  | none =>
    have hd : getResolutionDays f r = "-" := (getResolutionDays_dash_iff f r).mpr h
    simp [h, hd]
  | some n =>
    have hd : getResolutionDays f r ≠ "-" := by
      intro hcontra
      rw [getResolutionDays_dash_iff, h] at hcontra
      cases hcontra
    simp [h, bne_iff_ne, hd]

theorem resolutionTimes_nil (f : String → Option Int) (rows : List Row)
    (h : ∀ r ∈ rows, getResolutionDays f r = "-") :
    resolutionTimes f rows = [] := by
  rw [resolutionTimes, List.filterMap_eq_nil_iff]
  intro r hr
  exact (getResolutionDays_dash_iff f r).mp (h r hr)

theorem rhu_close (a b : Nat) (hb : 0 < b) :
    |(rhu a b : ℚ) - a / b| ≤ 1 / 2 := by
  have hbq : (0 : ℚ) < b := by exact_mod_cast hb
  rw [rhu]
  have hmod := Nat.div_add_mod (2 * a + b) (2 * b)
  set q := (2 * a + b) / (2 * b) with hq
  set r := (2 * a + b) % (2 * b) with hr
  have hrlt : r < 2 * b := Nat.mod_lt _ (by omega)
  have hcast : (2 : ℚ) * b * q + r = 2 * a + b := by exact_mod_cast hmod
  have hq2 : (q : ℚ) = (2 * a + b - r) / (2 * b) := by
    field_simp
    linarith [hcast]
  have key : (q : ℚ) - a / b = ((b : ℚ) - r) / (2 * b) := by
    rw [hq2]
    field_simp
    ring
  rw [key, abs_div, abs_of_pos (by positivity : (0 : ℚ) < 2 * b),
    div_le_iff₀ (by positivity : (0 : ℚ) < 2 * b)]
  have hr2 : (r : ℚ) < 2 * b := by exact_mod_cast hrlt
  have hr0 : (0 : ℚ) ≤ r := by positivity
  have habs : |(b : ℚ) - r| ≤ b := by
    rw [abs_le]
    constructor <;> linarith
  linarith

theorem rne_close (a b : Nat) (hb : 0 < b) :
    |(rne a b : ℚ) - a / b| ≤ 1 / 2 := by
  have hbq : (0 : ℚ) < b := by exact_mod_cast hb
  have hmod := Nat.div_add_mod a b
  have hrlt : a % b < b := Nat.mod_lt _ hb
  have hcast : (b : ℚ) * ((a / b : Nat) : ℚ) + ((a % b : Nat) : ℚ) = a := by
    exact_mod_cast hmod
  have hval : (a : ℚ) / b = ((a / b : Nat) : ℚ) + ((a % b : Nat) : ℚ) / b := by
    field_simp
    linarith [hcast]
  simp only [rne]
  split_ifs with h1 h2 h3
  · rw [hval]
    have h0 : (0 : ℚ) ≤ ((a % b : Nat) : ℚ) / b := by positivity
    have hub : ((a % b : Nat) : ℚ) / b ≤ 1 / 2 := by
      rw [div_le_iff₀ hbq]
      have hx : (2 : ℚ) * ((a % b : Nat) : ℚ) ≤ b := by exact_mod_cast h1.le
      linarith
    have hdiff : ((a / b : Nat) : ℚ) - (((a / b : Nat) : ℚ) + ((a % b : Nat) : ℚ) / b)
        = -(((a % b : Nat) : ℚ) / b) := by ring
    rw [hdiff, abs_neg, abs_of_nonneg h0]
    exact hub
  · push_cast
    rw [hval]
    have hlb : (1 : ℚ) / 2 ≤ ((a % b : Nat) : ℚ) / b := by
      rw [le_div_iff₀ hbq]
      have hx : (b : ℚ) ≤ 2 * ((a % b : Nat) : ℚ) := by exact_mod_cast h2.le
      linarith
    have hub1 : ((a % b : Nat) : ℚ) / b < 1 := by
      rw [div_lt_one hbq]
      exact_mod_cast hrlt
    rw [abs_le]
    constructor <;> linarith
  · have heq : 2 * (a % b) = b := by omega
    have hhalf : ((a % b : Nat) : ℚ) / b = 1 / 2 := by
      rw [div_eq_iff (ne_of_gt hbq)]
      have hx : (2 : ℚ) * ((a % b : Nat) : ℚ) = b := by exact_mod_cast heq
      linarith
    rw [hval]
    have hdiff : ((a / b : Nat) : ℚ) - (((a / b : Nat) : ℚ) + ((a % b : Nat) : ℚ) / b)
        = -(((a % b : Nat) : ℚ) / b) := by ring
    rw [hdiff, abs_neg, abs_of_nonneg (by positivity), hhalf]
  · have heq : 2 * (a % b) = b := by omega
    have hhalf : ((a % b : Nat) : ℚ) / b = 1 / 2 := by
      rw [div_eq_iff (ne_of_gt hbq)]
      have hx : (2 : ℚ) * ((a % b : Nat) : ℚ) = b := by exact_mod_cast heq
      linarith
    push_cast
    rw [hval]
    have hdiff : ((a / b : Nat) : ℚ) + 1 - (((a / b : Nat) : ℚ) + ((a % b : Nat) : ℚ) / b)
        = 1 - ((a % b : Nat) : ℚ) / b := by ring
    rw [hdiff, hhalf]
    have hs2 : (1 : ℚ) - 1 / 2 = 1 / 2 := by norm_num
    rw [hs2, abs_of_nonneg (by norm_num : (0 : ℚ) ≤ 1 / 2)]

theorem natLog2Aux_bounds (fuel : Nat) :
    ∀ n, 0 < n → n ≤ fuel →
      2 ^ natLog2Aux fuel n ≤ n ∧ n < 2 ^ (natLog2Aux fuel n + 1) := by
  induction fuel with
  | zero => intro n h0 hle; omega
  | succ fuel ih =>
    intro n h0 hle
    simp only [natLog2Aux]
    by_cases h1 : n ≤ 1
    · rw [if_pos h1]
      refine ⟨by simpa using h0, ?_⟩
      norm_num
      omega
    · rw [if_neg h1]
      have hpos : 0 < n / 2 := Nat.div_pos (by omega) (by omega)
      have hfl : n / 2 ≤ fuel := by omega
      obtain ⟨hlo, hhi⟩ := ih (n / 2) hpos hfl
      constructor
      · calc 2 ^ (natLog2Aux fuel (n / 2) + 1)
            = 2 * 2 ^ natLog2Aux fuel (n / 2) := by rw [pow_succ, Nat.mul_comm]
          _ ≤ 2 * (n / 2) := Nat.mul_le_mul (le_refl 2) hlo
          _ = n / 2 * 2 := Nat.mul_comm _ _
          _ ≤ n := Nat.div_mul_le_self n 2
      · calc n < 2 * (n / 2) + 2 := by omega
          _ = 2 * (n / 2 + 1) := by ring
          _ ≤ 2 * 2 ^ (natLog2Aux fuel (n / 2) + 1) := Nat.mul_le_mul (le_refl 2) hhi
          _ = 2 ^ (natLog2Aux fuel (n / 2) + 1 + 1) := by ring

theorem natLog2_bounds (n : Nat) (h : 0 < n) :
    2 ^ natLog2 n ≤ n ∧ n < 2 ^ (natLog2 n + 1) :=
  natLog2Aux_bounds n n h le_rfl

theorem qGe_floorLog2 (s l : Nat) (hs : 0 < s) (hl : 0 < l) :
    qGe s l (floorLog2 s l) = true := by
  rw [floorLog2]
  by_cases h : qGe s l ((natLog2 s : Int) - (natLog2 l : Int)) = true
  · rw [if_pos h]
    exact h
  · rw [if_neg h]
    obtain ⟨ha, -⟩ := natLog2_bounds s hs
    obtain ⟨-, hb⟩ := natLog2_bounds l hl
    set a := natLog2 s
    set b := natLog2 l
    rw [qGe]
    by_cases hab : (0 : Int) ≤ (a : Int) - b - 1
    · rw [if_pos hab]
      have htn : ((a : Int) - b - 1).toNat = a - b - 1 := by omega
      have hba : b + 1 ≤ a := by omega
      rw [htn]
      simp only [decide_eq_true_eq]
      have h1 : l * 2 ^ (a - b - 1) < 2 ^ (b + 1) * 2 ^ (a - b - 1) :=
        (Nat.mul_lt_mul_right (pow_pos (by norm_num) _)).mpr hb
      have h2 : 2 ^ (b + 1) * 2 ^ (a - b - 1) = 2 ^ a := by
        rw [← pow_add]
        congr 1
        omega
      calc l * 2 ^ (a - b - 1) ≤ 2 ^ a := by rw [← h2]; exact h1.le
        _ ≤ s := ha
    · rw [if_neg hab]
      have hba : a ≤ b := by omega
      have htn : (-((a : Int) - b - 1)).toNat = b + 1 - a := by omega
      rw [htn]
      simp only [decide_eq_true_eq]
      have h2 : 2 ^ a * 2 ^ (b + 1 - a) = 2 ^ (b + 1) := by
        rw [← pow_add]
        congr 1
        omega
      calc l ≤ 2 ^ (b + 1) := hb.le
        _ = 2 ^ a * 2 ^ (b + 1 - a) := h2.symm
        _ ≤ s * 2 ^ (b + 1 - a) := Nat.mul_le_mul ha (le_refl _)

theorem floorLog2_le52_lb (s l : Nat) (hs : 0 < s) (hl : 0 < l) :
    l * 2 ^ 52 ≤ s * 2 ^ (52 - floorLog2 s l).toNat := by
  have hq := qGe_floorLog2 s l hs hl
  rw [qGe] at hq
  by_cases h0 : (0 : Int) ≤ floorLog2 s l
  · rw [if_pos h0] at hq
    simp only [decide_eq_true_eq] at hq
    by_cases h52 : floorLog2 s l ≤ 52
    · have hsum : (floorLog2 s l).toNat + (52 - floorLog2 s l).toNat = 52 := by omega
      calc l * 2 ^ 52
          = l * 2 ^ (floorLog2 s l).toNat * 2 ^ (52 - floorLog2 s l).toNat := by
            rw [Nat.mul_assoc, ← pow_add, hsum]
        _ ≤ s * 2 ^ (52 - floorLog2 s l).toNat := Nat.mul_le_mul hq (le_refl _)
    · have hz : (52 - floorLog2 s l).toNat = 0 := by omega
      rw [hz, pow_zero, Nat.mul_one]
      calc l * 2 ^ 52 ≤ l * 2 ^ (floorLog2 s l).toNat :=
            Nat.mul_le_mul (le_refl l) (Nat.pow_le_pow_right (by norm_num) (by omega))
        _ ≤ s := hq
  · rw [if_neg h0] at hq
    simp only [decide_eq_true_eq] at hq
    have hsum : (-(floorLog2 s l)).toNat + 52 = (52 - floorLog2 s l).toNat := by omega
    calc l * 2 ^ 52 ≤ s * 2 ^ (-(floorLog2 s l)).toNat * 2 ^ 52 :=
          Nat.mul_le_mul hq (le_refl _)
      _ = s * 2 ^ (52 - floorLog2 s l).toNat := by
          rw [Nat.mul_assoc, ← pow_add, hsum]

theorem floorLog2_gt52_lb (s l : Nat) (hs : 0 < s) (hl : 0 < l)
    (he : 52 < floorLog2 s l) :
    l * 2 ^ (floorLog2 s l - 52).toNat * 2 ^ 52 ≤ s := by
  have hq := qGe_floorLog2 s l hs hl
  rw [qGe, if_pos (by omega : (0 : Int) ≤ floorLog2 s l)] at hq
  simp only [decide_eq_true_eq] at hq
  have hsum : (floorLog2 s l - 52).toNat + 52 = (floorLog2 s l).toNat := by omega
  calc l * 2 ^ (floorLog2 s l - 52).toNat * 2 ^ 52
      = l * 2 ^ (floorLog2 s l).toNat := by rw [Nat.mul_assoc, ← pow_add, hsum]
    _ ≤ s := hq

theorem flDiv_close (s l : Nat) (hs : 0 < s) (hl : 0 < l) :
    |flDiv s l - (s : ℚ) / l| ≤ ((s : ℚ) / l) / 2 ^ 53 := by
  have hlq : (0 : ℚ) < l := by exact_mod_cast hl
  simp only [flDiv, flSig]
  rw [if_neg (by omega : ¬ s = 0)]
  by_cases he : floorLog2 s l ≤ 52
  · rw [if_pos he, if_pos he]
    have hσq : (0 : ℚ) < ((2 ^ (52 - floorLog2 s l).toNat : Nat) : ℚ) := by positivity
    have hclose : |(rne (s * 2 ^ (52 - floorLog2 s l).toNat) l : ℚ)
        - ((s * 2 ^ (52 - floorLog2 s l).toNat : Nat) : ℚ) / l| ≤ 1 / 2 :=
      rne_close _ l hl
    have hlb : l * 2 ^ 52 ≤ s * 2 ^ (52 - floorLog2 s l).toNat :=
      floorLog2_le52_lb s l hs hl
    have key : (rne (s * 2 ^ (52 - floorLog2 s l).toNat) l : ℚ)
          / ((2 ^ (52 - floorLog2 s l).toNat : Nat) : ℚ) - s / l
        = ((rne (s * 2 ^ (52 - floorLog2 s l).toNat) l : ℚ)
            - ((s * 2 ^ (52 - floorLog2 s l).toNat : Nat) : ℚ) / l)
          / ((2 ^ (52 - floorLog2 s l).toNat : Nat) : ℚ) := by
      push_cast
      field_simp
      ring
    rw [key, abs_div, abs_of_pos hσq]
    refine le_trans ((div_le_div_iff_of_pos_right hσq).mpr hclose) ?_
    rw [div_le_div_iff₀ hσq (by positivity : (0 : ℚ) < (2 : ℚ) ^ 53)]
    have hcast : ((l * 2 ^ 52 : Nat) : ℚ)
        ≤ ((s * 2 ^ (52 - floorLog2 s l).toNat : Nat) : ℚ) := by exact_mod_cast hlb
    push_cast at hcast ⊢
    rw [div_mul_eq_mul_div (s : ℚ) (l : ℚ) ((2 : ℚ) ^ (52 - floorLog2 s l).toNat),
      le_div_iff₀ hlq]
    ring_nf
    ring_nf at hcast
    linarith
  · rw [if_neg he, if_neg he]
    have hbpos : 0 < l * 2 ^ (floorLog2 s l - 52).toNat := by positivity
    have hclose : |(rne s (l * 2 ^ (floorLog2 s l - 52).toNat) : ℚ)
        - (s : ℚ) / ((l * 2 ^ (floorLog2 s l - 52).toNat : Nat) : ℚ)| ≤ 1 / 2 :=
      rne_close s _ hbpos
    have hlb : l * 2 ^ (floorLog2 s l - 52).toNat * 2 ^ 52 ≤ s :=
      floorLog2_gt52_lb s l hs hl (by omega)
    have key : ((rne s (l * 2 ^ (floorLog2 s l - 52).toNat)
            * 2 ^ (floorLog2 s l - 52).toNat : Nat) : ℚ) - s / l
        = ((rne s (l * 2 ^ (floorLog2 s l - 52).toNat) : ℚ)
            - (s : ℚ) / ((l * 2 ^ (floorLog2 s l - 52).toNat : Nat) : ℚ))
          * ((2 ^ (floorLog2 s l - 52).toNat : Nat) : ℚ) := by
      push_cast
      field_simp
      ring
    rw [key, abs_mul,
      abs_of_pos (by positivity : (0 : ℚ) < ((2 ^ (floorLog2 s l - 52).toNat : Nat) : ℚ))]
    refine le_trans (mul_le_mul_of_nonneg_right hclose (by positivity)) ?_
    rw [div_div, le_div_iff₀ (by positivity : (0 : ℚ) < (l : ℚ) * 2 ^ 53)]
    have hcast : ((l * 2 ^ (floorLog2 s l - 52).toNat * 2 ^ 52 : Nat) : ℚ)
        ≤ (s : ℚ) := by exact_mod_cast hlb
    push_cast at hcast
    push_cast
    ring_nf
    ring_nf at hcast
    linarith

theorem jsToFixed1Avg_close (s l : Nat) (hl : 0 < l) :
    |(jsToFixed1Avg s l : ℚ) - 10 * flDiv s l| ≤ 1 / 2 := by
  by_cases hs : s = 0
  · subst hs
    simp [jsToFixed1Avg, flDiv]
  · simp only [jsToFixed1Avg, flDiv]
    rw [if_neg hs, if_neg hs]
    by_cases he : floorLog2 s l ≤ 52
    · rw [if_pos he, if_pos he]
      have hb : 0 < 2 ^ (52 - floorLog2 s l).toNat := pow_pos (by norm_num) _
      have h := rhu_close (10 * flSig s l) (2 ^ (52 - floorLog2 s l).toNat) hb
      have hrw : (10 : ℚ) * ((flSig s l : ℚ)
            / ((2 ^ (52 - floorLog2 s l).toNat : Nat) : ℚ))
          = ((10 * flSig s l : Nat) : ℚ)
            / ((2 ^ (52 - floorLog2 s l).toNat : Nat) : ℚ) := by
        push_cast
        ring
      rw [hrw]
      exact h
    · rw [if_neg he, if_neg he]
      have hzero : ((10 * flSig s l * 2 ^ (floorLog2 s l - 52).toNat : Nat) : ℚ)
          - 10 * ((flSig s l * 2 ^ (floorLog2 s l - 52).toNat : Nat) : ℚ) = 0 := by
        push_cast
        ring
      rw [hzero, abs_zero]
      norm_num

/-- C8 (amended): the entries feeding the mean are exactly the records
whose Resolution-Time Calculator result is not "-", and a dataset with no
resolvable duration reports "0".  Otherwise the program does not report
the exactly-rounded rational mean: it renders `toFixed(1)` of the binary64
quotient sum/length (`jsToFixed1Avg`), which is within half a tenth of
ten times the binary64 quotient (`flDiv`), and that quotient is within
relative 2^-53 of the true rational mean.  The result therefore differs
from the exact one-decimal rounding of the mean exactly when the double
rounding crosses a tenth boundary, as at mean 7/20 (see the
counterexample). -/
theorem claim_C8_avg_resolution_amended (f : String → Option Int) (rows : List Row) :
    ((∀ r ∈ rows, getResolutionDays f r = "-") → avgResolutionTime f rows = "0")
    ∧ (resolutionTimes f rows).length =
        rows.countP (fun r => getResolutionDays f r != "-")
    ∧ (resolutionTimes f rows ≠ [] →
        avgResolutionTime f rows =
          renderFixed1 (jsToFixed1Avg (resolutionTimes f rows).sum
            (resolutionTimes f rows).length))
    ∧ (∀ s l : Nat, 0 < l → |(jsToFixed1Avg s l : ℚ) - 10 * flDiv s l| ≤ 1 / 2)
    ∧ (∀ s l : Nat, 0 < s → 0 < l →
        |flDiv s l - (s : ℚ) / l| ≤ ((s : ℚ) / l) / 2 ^ 53) := by
  refine ⟨?_, resolutionTimes_length f rows, ?_,
    fun s l hl => jsToFixed1Avg_close s l hl,
    fun s l hs hl => flDiv_close s l hs hl⟩
  · intro h
    simp only [avgResolutionTime, resolutionTimes_nil f rows h]
    simp
  · intro h
    have hlen : 0 < (resolutionTimes f rows).length := List.length_pos.mpr h
    simp only [avgResolutionTime]
    rw [if_pos hlen]

/-- A record resolved and closed the same instant: zero resolution days. -/
def zeroDayRow : Row := [("created_on", "3/5/2024 0:00"), ("closed_on", "3/5/2024 0:00")]

/-- A record closed exactly one day after creation. -/
def oneDayRow : Row := [("created_on", "3/5/2024 0:00"), ("closed_on", "3/6/2024 0:00")]

/-- C8 counterexample dataset: 20 resolvable records whose durations sum
to 7 days, so the true mean is 7/20 = 0.35. -/
def meanSevenTwentieths : List Row :=
  List.replicate 13 zeroDayRow ++ List.replicate 7 oneDayRow

/-- C8 counterexample: on a 20-record dataset with durations summing to 7
the program prints "0.3" — `toFixed(1)` rounds the binary64 value of
7/20, which lies just below 0.35 — while the claim's "arithmetic mean
rounded to one decimal place" is "0.4" (`specRound10`, exact half-up;
round-half-even agrees here since 0.4 is the even side). -/
theorem claim_C8_cex :
    avgResolutionTime jsDateModel meanSevenTwentieths = "0.3"
    ∧ (resolutionTimes jsDateModel meanSevenTwentieths).sum = 7
    ∧ (resolutionTimes jsDateModel meanSevenTwentieths).length = 20
    ∧ renderFixed1 (specRound10 7 20) = "0.4"
    ∧ ("0.3" : String) ≠ "0.4" := by
  refine ⟨by decide, by decide, by decide, by decide, by decide⟩

/-- C8 witness: a dataset with no resolvable record gives "0"; a
two-record dataset with durations 2 and 1 gives "1.5" (here the double
quotient 3/2 is exact); and the two accuracy bounds at sum 7, length 20. -/
theorem claim_C8_witness :
    avgResolutionTime (fun _ => none) [[("closed_on", "x")]] = "0" ∧
    avgResolutionTime jsDateModel
      [[("created_on", "3/5/2024 0:00"), ("closed_on", "3/7/2024 0:00")],
       [("created_on", "3/5/2024 0:00"), ("closed_on", "3/6/2024 0:00")]] = "1.5" ∧
    |(jsToFixed1Avg 7 20 : ℚ) - 10 * flDiv 7 20| ≤ 1 / 2 ∧
    |flDiv 7 20 - (7 : ℚ) / 20| ≤ ((7 : ℚ) / 20) / 2 ^ 53 := by
  refine ⟨?_, ?_, ?_, ?_⟩
  · exact (claim_C8_avg_resolution_amended (fun _ => none) [[("closed_on", "x")]]).1
      (by decide)
  · have h := (claim_C8_avg_resolution_amended jsDateModel
      [[("created_on", "3/5/2024 0:00"), ("closed_on", "3/7/2024 0:00")],
       [("created_on", "3/5/2024 0:00"), ("closed_on", "3/6/2024 0:00")]]).2.2.1
      (by decide)
    rw [h]
    decide
  · exact (claim_C8_avg_resolution_amended (fun _ => none) []).2.2.2.1 7 20
      (by norm_num)
  · exact (claim_C8_avg_resolution_amended (fun _ => none) []).2.2.2.2 7 20
      (by norm_num) (by norm_num)

/-! ## Properties of the Filter Engine -/

theorem filter_pack (resolve : Row → String) (v : String) (rows l : List Row)
    (hl : l = rows.filter (fun r => resolve r == v)) :
    l.length = rows.countP (fun r => resolve r == v)
    ∧ (∀ r, r ∈ l ↔ r ∈ rows ∧ resolve r = v)
    ∧ ((∀ r ∈ rows, resolve r ≠ v) → l = []) := by
  subst hl
  refine ⟨(List.countP_eq_length_filter _ _).symm, ?_, ?_⟩
  · intro r
    rw [List.mem_filter, beq_iff_eq]
  · intro h
    rw [List.filter_eq_nil_iff]
    intro r hr
    simpa using h r hr

theorem filteredData_status (v : String) (rows : List Row) :
    filteredData (some ⟨"status", v⟩) rows =
      rows.filter (fun r => getStatus r == v) := by
  simp [filteredData]

theorem filteredData_priority (v : String) (rows : List Row) :
    filteredData (some ⟨"priority", v⟩) rows =
      rows.filter (fun r => getPriority r == v) := by
  simp [filteredData]

theorem filteredData_type (v : String) (rows : List Row) :
    filteredData (some ⟨"type", v⟩) rows =
      rows.filter (fun r => getType r == v) := by
  simp [filteredData]

theorem filteredData_state (v : String) (rows : List Row) :
    filteredData (some ⟨"state", v⟩) rows =
      rows.filter (fun r => getState r == v) := by
  simp [filteredData]

/-- C9: Filter Engine membership for each recognized kind.  The filtered
result is exactly the subset whose resolved value equals the selector's
value (string equality after resolution): it is the literal filter, it
has exactly as many records as match, its members are characterized by
field-equality, and a value matched by no record yields the empty list. -/
theorem claim_C9_filter_membership (v : String) (rows : List Row) :
    (filteredData (some ⟨"status", v⟩) rows = rows.filter (fun r => getStatus r == v)
      ∧ (filteredData (some ⟨"status", v⟩) rows).length
          = rows.countP (fun r => getStatus r == v)
      ∧ (∀ r, r ∈ filteredData (some ⟨"status", v⟩) rows ↔
          r ∈ rows ∧ getStatus r = v)
      ∧ ((∀ r ∈ rows, getStatus r ≠ v) →
          filteredData (some ⟨"status", v⟩) rows = []))
    ∧ (filteredData (some ⟨"priority", v⟩) rows = rows.filter (fun r => getPriority r == v)
      ∧ (filteredData (some ⟨"priority", v⟩) rows).length
          = rows.countP (fun r => getPriority r == v)
      ∧ (∀ r, r ∈ filteredData (some ⟨"priority", v⟩) rows ↔
          r ∈ rows ∧ getPriority r = v)
      ∧ ((∀ r ∈ rows, getPriority r ≠ v) →
          filteredData (some ⟨"priority", v⟩) rows = []))
    ∧ (filteredData (some ⟨"type", v⟩) rows = rows.filter (fun r => getType r == v)
      ∧ (filteredData (some ⟨"type", v⟩) rows).length
          = rows.countP (fun r => getType r == v)
      ∧ (∀ r, r ∈ filteredData (some ⟨"type", v⟩) rows ↔
          r ∈ rows ∧ getType r = v)
      ∧ ((∀ r ∈ rows, getType r ≠ v) →
          filteredData (some ⟨"type", v⟩) rows = []))
    ∧ (filteredData (some ⟨"state", v⟩) rows = rows.filter (fun r => getState r == v)
      ∧ (filteredData (some ⟨"state", v⟩) rows).length
          = rows.countP (fun r => getState r == v)
      ∧ (∀ r, r ∈ filteredData (some ⟨"state", v⟩) rows ↔
          r ∈ rows ∧ getState r = v)
      ∧ ((∀ r ∈ rows, getState r ≠ v) →
          filteredData (some ⟨"state", v⟩) rows = [])) := by
  obtain ⟨h1a, h1b, h1c⟩ :=
    filter_pack getStatus v rows _ (filteredData_status v rows)
  obtain ⟨h2a, h2b, h2c⟩ :=
    filter_pack getPriority v rows _ (filteredData_priority v rows)
  obtain ⟨h3a, h3b, h3c⟩ :=
    filter_pack getType v rows _ (filteredData_type v rows)
  obtain ⟨h4a, h4b, h4c⟩ :=
    filter_pack getState v rows _ (filteredData_state v rows)
  exact ⟨⟨filteredData_status v rows, h1a, h1b, h1c⟩,
    ⟨filteredData_priority v rows, h2a, h2b, h2c⟩,
    ⟨filteredData_type v rows, h3a, h3b, h3c⟩,
    ⟨filteredData_state v rows, h4a, h4b, h4c⟩⟩

/-- C9 witness: a value present in exactly one of two records yields one
record; a value present in none yields the empty list. -/
theorem claim_C9_witness :
    (filteredData (some ⟨"status", "Open"⟩)
      [[("Status", "Open")], [("Status", "Closed")]]).length = 1 ∧
    filteredData (some ⟨"status", "X"⟩) [[("Status", "Open")]] = [] := by
  constructor
  · rw [(claim_C9_filter_membership "Open"
      [[("Status", "Open")], [("Status", "Closed")]]).1.2.1]
    decide
  · exact (claim_C9_filter_membership "X" [[("Status", "Open")]]).1.2.2.2
      (by decide)

/-- C10: with no active selector the filtered result is empty; with an
active selector whose kind is none of "status", "priority", "type",
"state", the filter predicate defaults to `true` and the whole record set
is returned. -/
theorem claim_C10_filter_default (rows : List Row) :
    filteredData none rows = []
    ∧ ∀ t v, t ≠ "status" → t ≠ "priority" → t ≠ "type" → t ≠ "state" →
        filteredData (some ⟨t, v⟩) rows = rows := by
  constructor
  · rfl
  · intro t v h1 h2 h3 h4
    simp only [filteredData]
    have hp : ∀ r ∈ rows,
        (if t = "status" then getStatus r == v
         else if t = "priority" then getPriority r == v
         else if t = "type" then getType r == v
         else if t = "state" then getState r == v
         else true) = true := by
      intro r _
      rw [if_neg h1, if_neg h2, if_neg h3, if_neg h4]
    rw [List.filter_congr hp, List.filter_true]

/-- C10 witness: the default applied to an unrecognized kind. -/
theorem claim_C10_witness :
    filteredData none [[("a", "b")]] = [] ∧
    filteredData (some ⟨"other", "z"⟩) [[("a", "b")]] = [[("a", "b")]] :=
  ⟨(claim_C10_filter_default [[("a", "b")]]).1,
    (claim_C10_filter_default [[("a", "b")]]).2 "other" "z"
      (by decide) (by decide) (by decide) (by decide)⟩

end Dashboard
